import Mathlib

set_option maxHeartbeats 1000000
set_option maxRecDepth 8192

/-!
Verification of the DocManFu processing pipeline.

Shallow embedding of the core pipeline code:
  * `app/core/events.py`          — best-effort event publisher
  * `app/core/ai_provider.py`     — document-type normalization of parsed responses
  * `app/tasks/ai_analysis.py`    — bill-tracking side effects of classification
  * `app/tasks/base.py`           — job lifecycle operations (ProcessingJob updates)
  * `app/tasks/ocr.py`            — queue-dispatched OCR stage (`_ocr_pdf`)
  * `app/tasks/batch_reprocess.py`— batch controller loop and its PDF extraction path

External nondeterminism (Redis flag reads, subprocess behaviour, DB lookups,
provider responses) is resolved by explicit environment records, so every
definition is executable; the control flow itself is translated line by line
from the Python source.
-/

/- ------------------------------------------------------------------ -/
/- String helpers mirroring Python `str.strip`, `str.lower` (ASCII) and
   the substring test `needle in hay`.                                  -/
/- ------------------------------------------------------------------ -/

def pyIsSpace (c : Char) : Bool :=
  c == ' ' || c == '\t' || c == '\n' || c == '\r' || c == '\x0b' || c == '\x0c'

def pyStrip (s : String) : String :=
  String.mk (((s.data.dropWhile pyIsSpace).reverse.dropWhile pyIsSpace).reverse)

def asciiLower (s : String) : String :=
  String.mk (s.data.map Char.toLower)

/-- `listLead needle hay`: `needle` matches at the head of `hay`. -/
def listLead : List Char → List Char → Bool
  | [], _ => true
  | _ :: _, [] => false
  | a :: as, b :: bs => a == b && listLead as bs

/-- `listHas needle hay`: `needle` occurs contiguously somewhere in `hay`. -/
def listHas (needle : List Char) : List Char → Bool
  | [] => listLead needle []
  | c :: t => listLead needle (c :: t) || listHas needle t

/-- Python's `needle in hay` on strings. -/
def pyIn (needle hay : String) : Bool := listHas needle.data hay.data

/- ------------------------------------------------------------------ -/
/- app/core/events.py — `publish_event`                                 -/
/- ------------------------------------------------------------------ -/

/-- One invocation's transport behaviour: which of the four steps inside the
`try` block of `publish_event` (client creation, `json.dumps`, `publish`,
`close`) succeed. -/
structure Transport where
  connectOk : Bool
  serializeOk : Bool
  sendOk : Bool
  closeOk : Bool

/-- The body of the `try` block of `publish_event`, before the handler:
each step may raise. -/
def publishBody (t : Transport) : Except String Unit :=
  if t.connectOk = false then .error "redis connection failed" else
  if t.serializeOk = false then .error "payload serialization failed" else
  if t.sendOk = false then .error "publish failed" else
  if t.closeOk = false then .error "close failed" else
  .ok ()

/-- `publish_event`: the whole body is wrapped in `try/except Exception`,
which logs and swallows the failure.  The `Bool` payload records whether a
warning was logged. -/
def publish_event (t : Transport) : Except String Bool :=
  match publishBody t with
  | .ok _ => .ok false
  | .error _ => .ok true

/-- An `Except` value escapes to the caller iff it is an `error`. -/
def raisesToCaller : Except String Bool → Bool
  | .error _ => true
  | .ok _ => false

/- ------------------------------------------------------------------ -/
/- app/core/ai_provider.py — `_normalize_document_type`                 -/
/- ------------------------------------------------------------------ -/

def VALID_DOCUMENT_TYPES : List String :=
  ["bill", "invoice", "receipt", "bank_statement", "insurance", "medical",
   "tax", "legal", "correspondence", "report", "other"]

/-- `_DOCUMENT_TYPE_ALIASES`, in dict insertion order (Python dicts iterate
in insertion order, which the substring-fallback loop relies on). -/
def DOCUMENT_TYPE_ALIASES : List (String × String) :=
  [("pre-auth letter", "insurance"), ("pre-auth", "insurance"),
   ("preauth", "insurance"), ("eob", "insurance"),
   ("explanation of benefits", "insurance"), ("claim", "insurance"),
   ("coverage", "insurance"), ("policy", "insurance"),
   ("statement", "bank_statement"), ("contract", "legal"),
   ("letter", "correspondence"), ("newsletter", "correspondence")]

/-- The body of `_normalize_document_type` past the falsy guard, applied to
`normalized = raw_type.strip().lower()`: exact vocabulary member, exact
alias, first substring match against the alias table (either direction),
else "other" with a warning. -/
def normalize_core (normalized : String) : String :=
  if normalized ∈ VALID_DOCUMENT_TYPES then normalized
  else
    match DOCUMENT_TYPE_ALIASES.find? (fun p => p.1 == normalized) with
    | some p => p.2
    | none =>
      match DOCUMENT_TYPE_ALIASES.find?
          (fun p => pyIn p.1 normalized || pyIn normalized p.1) with
      | some p => p.2
      | none => "other"

/-- `_normalize_document_type(raw_type)`.  `none` models a missing field and
the empty string is falsy in Python, so both short-circuit to "other". -/
def normalize_document_type (raw_type : Option String) : String :=
  match raw_type with
  | none => "other"
  | some raw =>
    if raw = "" then "other"
    else normalize_core (asciiLower (pyStrip raw))

/-- The `document_type` field `_parse_response` stores into its
`AIAnalysisResult`: exactly the normalization of `data.get("document_type")`. -/
def parse_response_document_type (raw_field : Option String) : String :=
  normalize_document_type raw_field

/- ------------------------------------------------------------------ -/
/- app/tasks/ai_analysis.py — bill-tracking block of                    -/
/- `process_ai_analysis` (identical logic in batch `_run_ai_analysis`)  -/
/- ------------------------------------------------------------------ -/

structure BillFields where
  bill_status : Option String
  bill_due_date : Option Nat
deriving DecidableEq, Repr

/-- The bill-tracking update applied to a document after classification.
`parseIso` stands for `date.fromisoformat` (external, may fail); a parse
failure is swallowed.  `raw_due` is `extracted_metadata.get("due_date")`,
with `none` also covering the falsy empty string. -/
def apply_bill_tracking (parseIso : String → Option Nat)
    (document_type : String) (raw_due : Option String)
    (doc : BillFields) : BillFields :=
  if document_type = "bill" ∨ document_type = "invoice" then
    let d1 :=
      if doc.bill_status ≠ some "paid" ∧ doc.bill_status ≠ some "dismissed"
      then { doc with bill_status := some "unpaid" } else doc
    match raw_due with
    | some r =>
      if r = "" then d1
      else
        match parseIso r with
        | some d => { d1 with bill_due_date := some d }
        | none => d1
    | none => d1
  else
    if doc.bill_status = some "unpaid" then
      { bill_status := none, bill_due_date := none }
    else doc

/- ------------------------------------------------------------------ -/
/- app/tasks/base.py — job lifecycle operations                         -/
/- ------------------------------------------------------------------ -/

inductive JobStatus
  | pending | processing | completed | failed
deriving DecidableEq, Repr

structure JobRecord where
  status : JobStatus
  progress : Int
  started_at : Option Nat
  completed_at : Option Nat
  error_message : Option String
deriving DecidableEq, Repr

/-- A job as created pending by the dispatcher. -/
def initialJob : JobRecord :=
  { status := .pending, progress := 0, started_at := none,
    completed_at := none, error_message := none }

/-- One lifecycle-manager call against a resolving job id.  Timestamps are
abstract `Nat` instants. -/
inductive JobOp
  | markStarted (now : Nat)
  | updateProgress (percent : Int) (newStatus : Option JobStatus) (now : Nat)
  | markCompleted (now : Nat)
  | markFailed (msg : String) (now : Nat)
  | onRetry (msg : String)
deriving DecidableEq, Repr

/-- The persisted effect of one lifecycle call, translated from
`DocManFuTask` in `app/tasks/base.py`:
  * `mark_job_started`: status=processing, started_at=now (unconditionally),
    progress=0;
  * `update_job_progress`: progress = min(percent, 100) (no lower clamp);
    optional status update; started_at=now only when transitioning into
    processing with started_at unset;
  * `mark_job_completed`: status=completed, progress=100, completed_at=now;
  * `mark_job_failed`: status=failed, error_message, completed_at=now;
  * `on_retry`: only rewrites error_message. -/
def applyOp (j : JobRecord) : JobOp → JobRecord
  | .markStarted now =>
    { j with status := .processing, started_at := some now, progress := 0 }
  | .updateProgress percent newStatus now =>
    let j1 := { j with progress := min percent 100 }
    let j2 :=
      match newStatus with
      | some s => { j1 with status := s }
      | none => j1
    if newStatus = some JobStatus.processing ∧ j.started_at = none
    then { j2 with started_at := some now } else j2
  | .markCompleted now =>
    { j with status := .completed, progress := 100, completed_at := some now }
  | .markFailed msg now =>
    { j with status := .failed, error_message := some msg,
             completed_at := some now }
  | .onRetry msg =>
    { j with error_message := some ("Retrying: " ++ msg) }

/-- The sequence of committed (persisted) job states along a history. -/
def jobStates (j : JobRecord) : List JobOp → List JobRecord
  | [] => []
  | op :: rest =>
    let j1 := applyOp j op
    j1 :: jobStates j1 rest

/-- Progress values persisted while `status = processing`. -/
def processingProgress (j : JobRecord) (ops : List JobOp) : List Int :=
  ((jobStates j ops).filter
    (fun r => r.status == JobStatus.processing)).map (fun r => r.progress)

/-- Does this call write `started_at`, given the current record? -/
def startedWrite (j : JobRecord) : JobOp → Bool
  | .markStarted _ => true
  | .updateProgress _ newStatus _ =>
    newStatus == some JobStatus.processing && j.started_at == none
  | _ => false

/-- Does this call write `completed_at`? -/
def completedWrite : JobOp → Bool
  | .markCompleted _ => true
  | .markFailed _ _ => true
  | _ => false

/-- How many times a history writes `started_at`. -/
def startedWriteCount (j : JobRecord) : List JobOp → Nat
  | [] => 0
  | op :: rest =>
    (if startedWrite j op then 1 else 0) + startedWriteCount (applyOp j op) rest

/-- How many times a history writes `completed_at`. -/
def completedWriteCount : List JobOp → Nat
  | [] => 0
  | op :: rest => (if completedWrite op then 1 else 0) + completedWriteCount rest

def isMarkStarted : JobOp → Bool
  | .markStarted _ => true
  | _ => false

/- ------------------------------------------------------------------ -/
/- app/tasks/batch_reprocess.py — `_process_pdf` (batch extraction)     -/
/- ------------------------------------------------------------------ -/

/-- Environment resolving the external behaviour of one `_process_pdf`
call: the pymupdf open/page results, whether a `task_id` was passed, the
skip flag observed at each ~2s poll of the ocrmypdf subprocess, and the
subprocess outcome. -/
structure PdfEnv where
  fitzOpenOk : Bool
  pageTexts : List String
  hasTaskId : Bool
  pollsWhileRunning : Nat
  skipFlagAtPoll : Nat → Bool
  returncode : Int
  outOpenOk : Bool
  outPageTexts : List String

/-- `page.get_text()` results kept by the fast read: stripped, non-empty. -/
def strippedPages (pages : List String) : List String :=
  (pages.map pyStrip).filter (fun s => s != "")

def joinPages (pages : List String) : String :=
  String.intercalate "\n\n" pages

/-- The first subprocess poll at which `task_id and should_skip(task_id)`
is observed, if any. -/
def firstSkipPoll (env : PdfEnv) : Option Nat :=
  (List.range env.pollsWhileRunning).find?
    (fun i => env.hasTaskId && env.skipFlagAtPoll i)

inductive PdfOutcome
  | skippedDoc
  | done (newText : Option String) (subprocInvoked : Bool)
deriving DecidableEq, Repr

/-- `_process_pdf`: fast embedded-text read via pymupdf; if any page has
text, adopt it and return (no subprocess).  Otherwise spawn the ocrmypdf
subprocess, polling for the skip flag (kill + raise `_SkipDocument` when
observed); on returncode 0 re-read the output and adopt any text, all
other failures are swallowed. -/
def process_pdf (env : PdfEnv) : PdfOutcome :=
  if env.fitzOpenOk && !(strippedPages env.pageTexts).isEmpty then
    .done (some (joinPages (strippedPages env.pageTexts))) false
  else
    match firstSkipPoll env with
    | some _ => .skippedDoc
    | none =>
      if env.returncode == 0 && env.outOpenOk
          && !(strippedPages env.outPageTexts).isEmpty then
        .done (some (joinPages (strippedPages env.outPageTexts))) true
      else .done none true

/-- Did `_process_pdf` start the recognition subprocess?  (A skipped run
necessarily started it: the skip flag is only observed by its poll loop.) -/
def subprocUsed : PdfOutcome → Bool
  | .skippedDoc => true
  | .done _ b => b

/- ------------------------------------------------------------------ -/
/- app/tasks/ocr.py — `_ocr_pdf` (queue-dispatched OCR stage)           -/
/- ------------------------------------------------------------------ -/

/-- Outcome of the unconditional `ocrmypdf.ocr(...)` call at the top of
`_ocr_pdf`.  `priorOcrFound` is ocrmypdf detecting that the input already
contains (embedded) text. -/
inductive OcrmypdfResult
  | success
  | priorOcrFound
  | encryptedPdf
  | inputFileError (msg : String)
deriving DecidableEq, Repr

structure QueueEnv where
  ocrResult : OcrmypdfResult
  extractOk : Bool
  extractedText : String
  pageCount : Nat
deriving DecidableEq, Repr

inductive QueueOutcome
  | jobFailed (msg : String)
  | extracted (text : String) (pages : Nat)
deriving DecidableEq, Repr

/-- The input PDF already carries embedded text (what ocrmypdf reports as
`PriorOcrFoundError`). -/
def hasEmbeddedText (env : QueueEnv) : Bool :=
  match env.ocrResult with
  | .priorOcrFound => true
  | _ => false

/-- `_ocr_pdf`: invokes `ocrmypdf.ocr` first, unconditionally — there is no
embedded-text read before recognition.  The second component records that
the recognition engine was invoked (true on every path, since the call is
the first statement of the function's pipeline).  `PriorOcrFoundError`
falls back to extracting from the original file; encryption/corruption
fail the job; otherwise pdfminer's `extract_text` result is stripped and
adopted. -/
def ocr_pdf (env : QueueEnv) : QueueOutcome × Bool :=
  match env.ocrResult with
  | .encryptedPdf => (.jobFailed "PDF is encrypted and cannot be processed", true)
  | .inputFileError msg => (.jobFailed ("Invalid input PDF: " ++ msg), true)
  | _ =>
    let text := if env.extractOk then pyStrip env.extractedText else ""
    (.extracted text env.pageCount, true)

/- ------------------------------------------------------------------ -/
/- app/tasks/batch_reprocess.py — `batch_reprocess_task`                -/
/- ------------------------------------------------------------------ -/

structure Stats where
  processed : Nat
  succeeded : Nat
  failedCount : Nat
  skippedCount : Nat
  errors : List String
deriving DecidableEq, Repr

def initStats : Stats := ⟨0, 0, 0, 0, []⟩

/-- Events published on the channel by a batch run, with the aggregate
counter fields of their payloads. -/
inductive BEvent
  | progress (processed succeeded failedC skippedC total : Nat) (paused : Bool)
  | cancelledEv (processed succeeded failedC skippedC total : Nat)
  | completedEv (processed succeeded failedC skippedC total : Nat) (status : String)
deriving DecidableEq, Repr

def progressOf (st : Stats) (total : Nat) (paused : Bool) : BEvent :=
  .progress st.processed st.succeeded st.failedCount st.skippedCount total paused

/-- Per-document stage result inside the controller's inner `try`:
normal return, the `_SkipDocument` control-flow outcome, or any other
exception. -/
inductive StageOutcome
  | success
  | skipDoc
  | failure (msg : String)
deriving DecidableEq, Repr

/-- Control-signal-store writes and stage invocations performed by the
controller, in order.  (It never sets the skip flag, only clears it.) -/
inductive CtrlAction
  | setActive (taskId : Option String)
  | clearSkip
  | runStage (outcome : StageOutcome)
  | cleanupKeys
deriving DecidableEq, Repr

/-- The skip flag after the controller executes `acts`, starting from `b`. -/
def skipFlagAfter (b : Bool) (acts : List CtrlAction) : Bool :=
  acts.foldl (fun cur a => match a with | .clearSkip => false | _ => cur) b

/-- External behaviour observed during one iteration of the document loop:
the flag reads, whether the DB lookup raised (fatal), whether document and
file exist, and the stage outcome. -/
structure IterEnv where
  cancelledAtTop : Bool
  pausePolls : Nat
  cancelledAfterPause : Bool
  queryFatal : Bool
  docFound : Bool
  docName : String
  fileFound : Bool
  outcome : StageOutcome
deriving DecidableEq, Repr

inductive IterStep
  | cont (st : Stats)
  | stopCancelled (st : Stats)
  | stopFatal (st : Stats)
deriving DecidableEq, Repr

def pauseEvents (st : Stats) (total : Nat) (n : Nat) : List BEvent :=
  List.replicate n (progressOf st total true)

/-- One iteration of the `for i, doc_id in enumerate(document_ids)` loop:
cancel check (terminal cancelled event + explicit cleanup + return), pause
poll loop (each poll publishes progress), post-pause cancel `continue`,
document lookup (a raise here aborts the run fatally; a missing document
is silently counted skipped), the pre-stage progress event, file-existence
check, then the inner try: `clear_skip`, run the stage, record the
tri-state outcome (`_SkipDocument` also re-clears the flag), increment
`processed` and publish progress. -/
def runIter (total : Nat) (st : Stats) (e : IterEnv) :
    List BEvent × List CtrlAction × IterStep :=
  if e.cancelledAtTop then
    ([.cancelledEv st.processed st.succeeded st.failedCount st.skippedCount total],
     [.cleanupKeys, .setActive none],
     .stopCancelled st)
  else
    let pe := pauseEvents st total e.pausePolls
    if e.cancelledAfterPause then (pe, [], .cont st)
    else if e.queryFatal then (pe, [], .stopFatal st)
    else if !e.docFound then
      (pe, [],
       .cont { st with skippedCount := st.skippedCount + 1,
                       processed := st.processed + 1 })
    else
      let startEv := progressOf st total false
      if !e.fileFound then
        (pe ++ [startEv], [],
         .cont { st with skippedCount := st.skippedCount + 1,
                         processed := st.processed + 1,
                         errors := st.errors ++ [e.docName ++ ": File not found on disk"] })
      else
        let acts : List CtrlAction :=
          [.clearSkip, .runStage e.outcome] ++
            (match e.outcome with | .skipDoc => [.clearSkip] | _ => [])
        let st1 :=
          match e.outcome with
          | .success => { st with succeeded := st.succeeded + 1 }
          | .skipDoc => { st with skippedCount := st.skippedCount + 1 }
          | .failure msg =>
            { st with failedCount := st.failedCount + 1,
                      errors := st.errors ++ [e.docName ++ ": " ++ msg] }
        let st2 := { st1 with processed := st1.processed + 1 }
        (pe ++ [startEv, progressOf st2 total false], acts, .cont st2)

inductive LoopEnd
  | finishedLoop (st : Stats)
  | cancelledRun (st : Stats)
  | fatalRun (st : Stats)
deriving DecidableEq, Repr

def batchLoop (total : Nat) (st : Stats) :
    List IterEnv → List BEvent × List CtrlAction × LoopEnd
  | [] => ([], [], .finishedLoop st)
  | e :: rest =>
    match runIter total st e with
    | (evs, acts, .stopCancelled st1) => (evs, acts, .cancelledRun st1)
    | (evs, acts, .stopFatal st1) => (evs, acts, .fatalRun st1)
    | (evs, acts, .cont st1) =>
      let r := batchLoop total st1 rest
      (evs ++ r.1, acts ++ r.2.1, r.2.2)

/-- Everything observable a batch run produces: the published events and
the controller's store writes / stage invocations, in order. -/
structure RunOutput where
  events : List BEvent
  actions : List CtrlAction
deriving DecidableEq, Repr

/-- Python's `existing and existing != task_id` guard on the marker value
(an empty string is falsy, hence does not block). -/
def activeBlocks (activeTask : Option String) (taskId : String) : Bool :=
  match activeTask with
  | some existing => existing != "" && existing != taskId
  | none => false

/-- `batch_reprocess_task(document_ids, ...)`.  `activeTask` is the current
value of the system-wide `batch_reprocess:active_task` marker.
The blocked branch publishes a single terminal "blocked" event with all
counters zero and returns — it performs no store write and runs no stage.
Otherwise the marker is claimed, the loop runs, and the `finally` block
clears the run's control signals and releases the marker on every exit;
loop completion and fatal errors (but not cancellation) additionally
publish the terminal "completed" event. -/
def batch_reprocess_task (activeTask : Option String) (taskId : String)
    (docs : List IterEnv) : RunOutput :=
  let total := docs.length
  if activeBlocks activeTask taskId then
    { events := [.completedEv 0 0 0 0 total "blocked"], actions := [] }
  else
    let r := batchLoop total initStats docs
    let startEvs := [BEvent.progress 0 0 0 0 total false]
    let preActs := [CtrlAction.setActive (some taskId)]
    match r.2.2 with
    | .cancelledRun _ =>
      { events := startEvs ++ r.1,
        actions := preActs ++ r.2.1 ++ [.cleanupKeys, .setActive none] }
    | .finishedLoop st =>
      { events := startEvs ++ r.1 ++
          [.completedEv st.processed st.succeeded st.failedCount st.skippedCount
            total "completed"],
        actions := preActs ++ r.2.1 ++ [.cleanupKeys, .setActive none] }
    | .fatalRun st =>
      { events := startEvs ++ r.1 ++
          [.completedEv st.processed st.succeeded st.failedCount st.skippedCount
            total "completed"],
        actions := preActs ++ r.2.1 ++ [.cleanupKeys, .setActive none] }

/-- The counter discipline claimed of every published batch event:
`processed = succeeded + failed + skipped` and `processed ≤ total`. -/
def evConsistent : BEvent → Bool
  | .progress p s f k t _ => p == s + f + k && decide (p ≤ t)
  | .cancelledEv p s f k t => p == s + f + k && decide (p ≤ t)
  | .completedEv p s f k t _ => p == s + f + k && decide (p ≤ t)

/-- Maps a `_process_pdf` result to the controller's tri-state outcome
(`_SkipDocument` is the only exception it can raise besides swallowed ones). -/
def stageOutcomeOfPdf : PdfOutcome → StageOutcome
  | .skippedDoc => .skipDoc
  | .done _ _ => .success

/-- The aggregate-counter discipline on run stats. -/
def stOk (st : Stats) : Prop :=
  st.processed = st.succeeded + st.failedCount + st.skippedCount

/-- A born-digital PDF with embedded text, as seen by the batch path. -/
def pdfEnvEmbedded : PdfEnv :=
  { fitzOpenOk := true,
    pageTexts := ["Electric bill, amount due $142.50"],
    hasTaskId := true,
    pollsWhileRunning := 0,
    skipFlagAtPoll := fun _ => false,
    returncode := 0,
    outOpenOk := true,
    outPageTexts := [] }

/-- A scanned PDF with no embedded text whose ocrmypdf subprocess run
observes the skip flag at its first poll. -/
def pdfEnvSkip : PdfEnv :=
  { fitzOpenOk := false,
    pageTexts := [],
    hasTaskId := true,
    pollsWhileRunning := 1,
    skipFlagAtPoll := fun _ => true,
    returncode := 1,
    outOpenOk := false,
    outPageTexts := [] }

/-- The loop iteration corresponding to `pdfEnvSkip`: no control flags
set, document and file present, stage outcome `_SkipDocument`. -/
def iterEnvSkip : IterEnv :=
  { cancelledAtTop := false, pausePolls := 0, cancelledAfterPause := false,
    queryFatal := false, docFound := true, docName := "doc.pdf",
    fileFound := true, outcome := .skipDoc }

/- ------------------------------------------------------------------ -/
/- Shared helper lemmas                                                 -/
/- ------------------------------------------------------------------ -/

theorem alias_targets_valid :
    ∀ p ∈ DOCUMENT_TYPE_ALIASES, p.2 ∈ VALID_DOCUMENT_TYPES := by decide

theorem normalize_core_mem (n : String) :
    normalize_core n ∈ VALID_DOCUMENT_TYPES := by
  unfold normalize_core
  by_cases hv : n ∈ VALID_DOCUMENT_TYPES
  · rw [if_pos hv]; exact hv
  · rw [if_neg hv]
    cases hf : DOCUMENT_TYPE_ALIASES.find? (fun p => p.1 == n) with
    | some p => exact alias_targets_valid p (List.mem_of_find?_eq_some hf)
    | none =>
      cases hf2 : DOCUMENT_TYPE_ALIASES.find?
          (fun p => pyIn p.1 n || pyIn n p.1) with
      | some p => exact alias_targets_valid p (List.mem_of_find?_eq_some hf2)
      | none => decide

/- ------------------------------------------------------------------ -/
/- C9                                                                   -/
/- ------------------------------------------------------------------ -/

/-- C9: for every topic/payload and every failure of the underlying
transport (connection, serialization of the send, or close),
`publish_event` never raises into its caller: the failure is logged and
swallowed and the caller's control flow continues. -/
theorem publish_event_never_raises (t : Transport) :
    raisesToCaller (publish_event t) = false := by
  rcases t with ⟨c, s, p, cl⟩
  cases c <;> cases s <;> cases p <;> cases cl <;> rfl

/- ------------------------------------------------------------------ -/
/- C6                                                                   -/
/- ------------------------------------------------------------------ -/

/-- C6: classification always stores a `document_type` from the fixed
closed vocabulary: an exact member is kept, aliases such as "EOB" map into
it (here to "insurance"), and anything unmatched ("random-garbage") falls
back to "other"; no out-of-vocabulary value is ever produced, for any
string-or-missing input. -/
theorem document_type_closed_vocabulary :
    (∀ raw : Option String,
        normalize_document_type raw ∈ VALID_DOCUMENT_TYPES) ∧
    parse_response_document_type (some "EOB") = "insurance" ∧
    parse_response_document_type (some "random-garbage") = "other" := by
  refine ⟨?_, by decide, by decide⟩
  intro raw
  match raw with
  | none => decide
  | some s =>
    show (if s = "" then "other"
          else normalize_core (asciiLower (pyStrip s))) ∈ VALID_DOCUMENT_TYPES
    by_cases hs : s = ""
    · rw [if_pos hs]; decide
    · rw [if_neg hs]; exact normalize_core_mem _

/- ------------------------------------------------------------------ -/
/- C7                                                                   -/
/- ------------------------------------------------------------------ -/

/-- C7 counterexample: a document whose bill status is "paid" keeps both
bill-tracking fields when reclassified away from a billable category —
the code clears them only from the "unpaid" state, contradicting the
claim's "regardless of the bill status (unpaid, paid, or dismissed)". -/
theorem paid_bill_fields_not_cleared :
    apply_bill_tracking (fun _ => none) "correspondence" none
        ⟨some "paid", some 5⟩ = ⟨some "paid", some 5⟩ ∧
    apply_bill_tracking (fun _ => none) "correspondence" none
        ⟨some "paid", some 5⟩ ≠ ⟨none, none⟩ := by decide

/-- C7 amended: when classification changes the category away from a
billable one, the bill-tracking fields are cleared only if the document's
bill status is "unpaid"; any other prior state ("paid", "dismissed", or
unset) is left entirely untouched. -/
theorem bill_fields_cleared_only_when_unpaid
    (parseIso : String → Option Nat) (ty : String) (raw_due : Option String)
    (d : BillFields) (hty : ty ≠ "bill" ∧ ty ≠ "invoice") :
    (d.bill_status = some "unpaid" →
        apply_bill_tracking parseIso ty raw_due d = ⟨none, none⟩) ∧
    (d.bill_status ≠ some "unpaid" →
        apply_bill_tracking parseIso ty raw_due d = d) := by
  unfold apply_bill_tracking
  rw [if_neg (by rintro (h | h) <;> [exact hty.1 h; exact hty.2 h])]
  constructor
  · intro h; rw [if_pos h]
  · intro h; rw [if_neg h]

theorem bill_fields_cleared_only_when_unpaid_instance :
    apply_bill_tracking (fun _ => none) "correspondence" none
        ⟨some "unpaid", some 3⟩ = ⟨none, none⟩ :=
  (bill_fields_cleared_only_when_unpaid (fun _ => none) "correspondence" none
      ⟨some "unpaid", some 3⟩ (by decide)).1 (by decide)

/- ------------------------------------------------------------------ -/
/- C8                                                                   -/
/- ------------------------------------------------------------------ -/

/-- C8 counterexample: `update_job_progress` stores `min(progress, 100)` —
there is no lower clamp, so a percent of -5 is persisted as -5, outside
[0, 100], contradicting the claim that values below 0 are stored as 0. -/
theorem negative_progress_not_clamped :
    (applyOp initialJob (.updateProgress (-5) none 0)).progress = -5 ∧
    ¬ (0 ≤ (applyOp initialJob (.updateProgress (-5) none 0)).progress) := by
  decide

/-- C8 amended: `update_job_progress` clamps only from above: the stored
value is exactly `min(percent, 100)`, hence always ≤ 100, and lies in
[0, 100] only under the additional assumption that the percent argument is
non-negative (which every caller in the codebase satisfies). -/
theorem progress_clamped_above_only (j : JobRecord) (p : Int)
    (newStatus : Option JobStatus) (now : Nat) :
    (applyOp j (.updateProgress p newStatus now)).progress = min p 100 ∧
    (applyOp j (.updateProgress p newStatus now)).progress ≤ 100 ∧
    (0 ≤ p → 0 ≤ (applyOp j (.updateProgress p newStatus now)).progress) := by
  have hp : (applyOp j (.updateProgress p newStatus now)).progress = min p 100 := by
    simp only [applyOp]
    cases newStatus <;> split <;> rfl
  refine ⟨hp, ?_, ?_⟩
  · rw [hp]; exact min_le_right p 100
  · intro h0; rw [hp]; exact le_min h0 (by norm_num)

theorem progress_clamped_above_only_instance :
    0 ≤ (applyOp initialJob (.updateProgress 150 none 0)).progress ∧
    (applyOp initialJob (.updateProgress 150 none 0)).progress ≤ 100 :=
  ⟨(progress_clamped_above_only initialJob 150 none 0).2.2 (by norm_num),
   (progress_clamped_above_only initialJob 150 none 0).2.1⟩

/- ------------------------------------------------------------------ -/
/- C3                                                                   -/
/- ------------------------------------------------------------------ -/

theorem processingProgress_cons (j : JobRecord) (op : JobOp) (t : List JobOp) :
    processingProgress j (op :: t) =
      (if (applyOp j op).status == JobStatus.processing
       then [(applyOp j op).progress] else []) ++
        processingProgress (applyOp j op) t := by
  simp only [processingProgress, jobStates, List.filter_cons]
  split <;> simp

theorem applyOp_update_processing (j : JobRecord) (p : Int) (now : Nat) :
    (applyOp j (.updateProgress p (some JobStatus.processing) now)).status =
      JobStatus.processing ∧
    (applyOp j (.updateProgress p (some JobStatus.processing) now)).progress =
      min p 100 := by
  simp only [applyOp]
  split <;> exact ⟨rfl, rfl⟩

theorem processingProgress_update_run (now tc : Nat) :
    ∀ (ps : List Int) (j : JobRecord),
      processingProgress j
        (ps.map (fun p => JobOp.updateProgress p (some JobStatus.processing) now)
          ++ [JobOp.markCompleted tc]) = ps.map (fun p => min p 100)
  | [], j => by
    simp [processingProgress, jobStates, applyOp]
  | p :: ps, j => by
    rw [List.map_cons, List.cons_append, processingProgress_cons]
    obtain ⟨hst, hpr⟩ := applyOp_update_processing j p now
    rw [hst, hpr, processingProgress_update_run now tc ps _]
    simp

/-- C3 counterexample: the history a queue-level retry produces —
`mark_job_started`, a 50% progress update, then `mark_job_started` again on
re-entry — persists the progress sequence [0, 50, 0] while
`status = processing`, which is not monotonically non-decreasing. -/
theorem progress_monotonicity_fails_on_retry :
    ¬ List.Chain' (fun a b => a ≤ b)
        (processingProgress initialJob
          [JobOp.markStarted 0,
           JobOp.updateProgress 50 (some JobStatus.processing) 1,
           JobOp.markStarted 2]) := by
  intro h
  have htr : processingProgress initialJob
      [JobOp.markStarted 0,
       JobOp.updateProgress 50 (some JobStatus.processing) 1,
       JobOp.markStarted 2] = [0, 50, 0] := by decide
  rw [htr, List.chain'_cons, List.chain'_cons] at h
  obtain ⟨-, h2, -⟩ := h
  omega

/-- C3 amended: the progress persisted on the transition into completed is
exactly 100, and within a single (non-retried) stage execution — one
`mark_job_started` followed by progress updates with non-negative,
non-decreasing percents and a final `mark_job_completed` — the persisted
progress sequence while status = processing is non-decreasing; a retry
re-entering the stage, however, resets progress to 0 via
`mark_job_started`, breaking monotonicity across the whole history. -/
theorem progress_monotone_single_execution (t0 now tc : Nat) (ps : List Int)
    (hnn : ∀ p ∈ ps, 0 ≤ p)
    (hmono : List.Chain' (fun a b => a ≤ b) ps) :
    List.Chain' (fun a b => a ≤ b)
      (processingProgress initialJob
        (JobOp.markStarted t0 ::
          (ps.map (fun p => JobOp.updateProgress p (some JobStatus.processing) now)
            ++ [JobOp.markCompleted tc]))) ∧
    ∀ (j : JobRecord) (n : Nat), (applyOp j (.markCompleted n)).progress = 100 := by
  constructor
  · rw [processingProgress_cons]
    have h0 : (applyOp initialJob (JobOp.markStarted t0)) =
        { status := .processing, progress := 0, started_at := some t0,
          completed_at := none, error_message := none } := rfl
    rw [h0]
    simp only [beq_self_eq_true, if_pos]
    rw [processingProgress_update_run now tc ps _]
    show List.Chain' (fun a b => a ≤ b) (0 :: ps.map (fun p => min p 100))
    rw [List.chain'_cons']
    refine ⟨?_, ?_⟩
    · intro y hy
      cases ps with
      | nil => simp at hy
      | cons q qs =>
        simp only [List.map_cons, List.head?_cons, Option.mem_def,
          Option.some_inj] at hy
        subst hy
        exact le_min (hnn q (by simp)) (by norm_num)
    · rw [List.chain'_map]
      exact hmono.imp (fun a b hab => min_le_min hab le_rfl)
  · intro j n; rfl

theorem progress_monotone_single_execution_instance :
    List.Chain' (fun a b => a ≤ b)
      (processingProgress initialJob
        (JobOp.markStarted 0 ::
          (([10, 50, 90] : List Int).map
              (fun p => JobOp.updateProgress p (some JobStatus.processing) 1)
            ++ [JobOp.markCompleted 2]))) ∧
    ∀ (j : JobRecord) (n : Nat), (applyOp j (.markCompleted n)).progress = 100 :=
  progress_monotone_single_execution 0 1 2 [10, 50, 90]
    (by intro p hp; simp only [List.mem_cons, List.not_mem_nil, or_false] at hp
        rcases hp with rfl | rfl | rfl <;> norm_num)
    (by rw [List.chain'_cons, List.chain'_cons]
        refine ⟨by norm_num, by norm_num, List.chain'_singleton 90⟩)

/- ------------------------------------------------------------------ -/
/- C4                                                                   -/
/- ------------------------------------------------------------------ -/

theorem applyOp_started_at_stays_set (j : JobRecord) (op : JobOp)
    (h : j.started_at ≠ none) : (applyOp j op).started_at ≠ none := by
  cases op with
  | markStarted now => simp [applyOp]
  | updateProgress p ns now =>
    simp only [applyOp]
    split
    · simp
    · cases ns <;> exact h
  | markCompleted now => exact h
  | markFailed msg now => exact h
  | onRetry msg => exact h

theorem startedWriteCount_zero_of_set :
    ∀ (ops : List JobOp) (j : JobRecord), j.started_at ≠ none →
      (∀ op ∈ ops, isMarkStarted op = false) → startedWriteCount j ops = 0
  | [], j, _, _ => rfl
  | op :: ops, j, hset, hnm => by
    have hw : startedWrite j op = false := by
      cases op with
      | markStarted now =>
        exact absurd (hnm (JobOp.markStarted now) (by simp))
          (by simp [isMarkStarted])
      | updateProgress p ns now =>
        simp only [startedWrite, Bool.and_eq_false_iff]
        right
        simpa [beq_iff_eq] using hset
      | markCompleted now => rfl
      | markFailed msg now => rfl
      | onRetry msg => rfl
    rw [startedWriteCount, hw, if_neg (by simp)]
    rw [startedWriteCount_zero_of_set ops _ (applyOp_started_at_stays_set j op hset)
      (fun o ho => hnm o (by simp [ho]))]

/-- C4 counterexample: `mark_job_started` assigns `started_at`
unconditionally, so the retry history that re-enters the stage —
`mark_job_started` twice — writes `started_at` twice, contradicting
"assigned at most once over any execution history (including retries)". -/
theorem started_at_reassigned_on_retry :
    startedWriteCount initialJob [JobOp.markStarted 0, JobOp.markStarted 1] = 2 ∧
    ¬ startedWriteCount initialJob [JobOp.markStarted 0, JobOp.markStarted 1] ≤ 1 := by
  decide

/-- C4 amended: `update_job_progress` assigns `started_at` only when it is
unset, so any history free of `mark_job_started` calls writes it at most
once; `mark_job_started` itself, however, (re)assigns `started_at` on every
call — hence a queue retry re-entering the stage reassigns it — and
`completed_at` is written only by the transitions into completed or failed
(each such call writes it). -/
theorem timestamp_assignment_discipline :
    (∀ (j : JobRecord) (ops : List JobOp),
        (∀ op ∈ ops, isMarkStarted op = false) → startedWriteCount j ops ≤ 1) ∧
    (∀ (j : JobRecord) (now : Nat),
        (applyOp j (.markStarted now)).started_at = some now) ∧
    (∀ (j : JobRecord) (op : JobOp), completedWrite op = false →
        (applyOp j op).completed_at = j.completed_at) := by
  refine ⟨?_, fun j now => rfl, ?_⟩
  · intro j ops
    induction ops generalizing j with
    | nil => intro _; exact Nat.zero_le 1
    | cons op rest ih =>
      intro hnm
      rw [startedWriteCount]
      by_cases hw : startedWrite j op
      · rw [if_pos hw]
        have hset : (applyOp j op).started_at ≠ none := by
          cases op with
          | markStarted now => simp [applyOp]
          | updateProgress p ns now =>
            simp only [startedWrite, Bool.and_eq_true, beq_iff_eq] at hw
            simp only [applyOp, if_pos (And.intro hw.1 hw.2)]
            simp
          | markCompleted now => simp [startedWrite] at hw
          | markFailed msg now => simp [startedWrite] at hw
          | onRetry msg => simp [startedWrite] at hw
        rw [startedWriteCount_zero_of_set rest _ hset
          (fun o ho => hnm o (by simp [ho]))]
      · rw [if_neg hw, Nat.zero_add]
        exact ih _ (fun o ho => hnm o (by simp [ho]))
  · intro j op h
    cases op with
    | markStarted now => rfl
    | updateProgress p ns now =>
      simp only [applyOp]
      split
      · cases ns <;> rfl
      · cases ns <;> rfl
    | markCompleted now => simp [completedWrite] at h
    | markFailed msg now => simp [completedWrite] at h
    | onRetry msg => rfl

theorem timestamp_assignment_discipline_instance :
    startedWriteCount initialJob
      [JobOp.updateProgress 10 (some JobStatus.processing) 1,
       JobOp.updateProgress 20 (some JobStatus.processing) 2,
       JobOp.markCompleted 3] ≤ 1 :=
  timestamp_assignment_discipline.1 initialJob _ (by decide)

/- ------------------------------------------------------------------ -/
/- C5                                                                   -/
/- ------------------------------------------------------------------ -/

/-- C5 counterexample: the queue-dispatched OCR stage (`_ocr_pdf`) invokes
the ocrmypdf recognition engine unconditionally, even for a PDF whose
embedded text ocrmypdf itself reports via `PriorOcrFoundError`; the claim
that both extraction paths skip recognition when embedded text is present
is therefore false for the queue path. -/
theorem queue_ocr_always_invokes_recognition :
    hasEmbeddedText { ocrResult := .priorOcrFound, extractOk := true,
                      extractedText := "Electric bill, amount due $142.50",
                      pageCount := 1 } = true ∧
    (ocr_pdf { ocrResult := .priorOcrFound, extractOk := true,
               extractedText := "Electric bill, amount due $142.50",
               pageCount := 1 }).2 = true := by decide

/-- C5 amended: the fast-read-first policy holds only for the batch
controller's extraction path: there, embedded text on any page is adopted
without starting the recognition subprocess, and the subprocess runs only
when the fast read yields no text (pymupdf open failed or every page
blank); the queue-dispatched `_ocr_pdf`, by contrast, invokes the
recognition engine on every input before any text read. -/
theorem fast_read_short_circuit_batch_only (env : PdfEnv)
    (hopen : env.fitzOpenOk = true)
    (hpages : (strippedPages env.pageTexts).isEmpty = false) :
    process_pdf env =
      .done (some (joinPages (strippedPages env.pageTexts))) false ∧
    (∀ env2 : PdfEnv, subprocUsed (process_pdf env2) = true →
        env2.fitzOpenOk = false ∨ (strippedPages env2.pageTexts).isEmpty = true) ∧
    (∀ q : QueueEnv, (ocr_pdf q).2 = true) := by
  refine ⟨?_, ?_, ?_⟩
  · unfold process_pdf
    rw [if_pos (by rw [hopen, hpages]; rfl)]
  · intro env2 hsub
    by_cases hc : (env2.fitzOpenOk && !(strippedPages env2.pageTexts).isEmpty) = true
    · exfalso
      unfold process_pdf at hsub
      rw [if_pos hc] at hsub
      simp [subprocUsed] at hsub
    · rcases Bool.and_eq_false_iff.mp (Bool.not_eq_true _ ▸ hc) with h | h
      · exact Or.inl h
      · exact Or.inr (by simpa using h)
  · intro q
    rcases q with ⟨res, eo, et, pc⟩
    cases res <;> rfl

theorem fast_read_short_circuit_batch_only_instance :
    process_pdf pdfEnvEmbedded =
      .done (some (joinPages (strippedPages pdfEnvEmbedded.pageTexts))) false :=
  (fast_read_short_circuit_batch_only pdfEnvEmbedded rfl (by decide)).1

/- ------------------------------------------------------------------ -/
/- C1                                                                   -/
/- ------------------------------------------------------------------ -/

/-- C1: invoking the batch controller while a different run holds the
active-run marker produces exactly one terminal "blocked" event with
processed = succeeded = failed = skipped = 0 (and total the length of the
requested list), and performs no store write and no stage invocation at
all — in particular it neither modifies nor clears the active run's
control signals or the active-run marker. -/
theorem batch_blocked_second_run (activeTask : Option String) (taskId : String)
    (docs : List IterEnv) (existing : String)
    (hA : activeTask = some existing) (h1 : existing ≠ "") (h2 : existing ≠ taskId) :
    batch_reprocess_task activeTask taskId docs =
      { events := [.completedEv 0 0 0 0 docs.length "blocked"], actions := [] } := by
  subst hA
  have hbk : activeBlocks (some existing) taskId = true := by
    simp [activeBlocks, bne_iff_ne, h1, h2]
  simp [batch_reprocess_task, hbk]

theorem batch_blocked_second_run_instance :
    batch_reprocess_task (some "run-a") "run-b"
      [{ cancelledAtTop := false, pausePolls := 0, cancelledAfterPause := false,
         queryFatal := false, docFound := true, docName := "doc.pdf",
         fileFound := true, outcome := .success }] =
      { events := [BEvent.completedEv 0 0 0 0 1 "blocked"], actions := [] } :=
  batch_blocked_second_run (some "run-a") "run-b" _ "run-a" rfl
    (by decide) (by decide)

/- ------------------------------------------------------------------ -/
/- C2                                                                   -/
/- ------------------------------------------------------------------ -/

/-- C2: if the controller reaches a document's extraction and a skip
signal is observed while the ocrmypdf subprocess is being polled (the fast
read having yielded nothing), then `_process_pdf` raises the skip
control-flow outcome, the controller records the document as skipped —
incrementing `skipped`, never `failed` — and the skip flag is clear after
the document's iteration (cleared again right after being consumed), so it
cannot leak into the next document, whose own iteration moreover clears it
once more before running its stage. -/
theorem batch_skip_recorded_and_cleared (total : Nat) (st : Stats)
    (env : PdfEnv) (e : IterEnv)
    (h1 : e.cancelledAtTop = false) (h2 : e.cancelledAfterPause = false)
    (h3 : e.queryFatal = false) (h4 : e.docFound = true) (h5 : e.fileFound = true)
    (hfast : (env.fitzOpenOk && !(strippedPages env.pageTexts).isEmpty) = false)
    (hskip : (firstSkipPoll env).isSome = true)
    (hout : e.outcome = stageOutcomeOfPdf (process_pdf env)) :
    process_pdf env = .skippedDoc ∧
    (runIter total st e).2.2 =
      .cont { st with skippedCount := st.skippedCount + 1,
                      processed := st.processed + 1 } ∧
    (runIter total st e).2.1 =
      [.clearSkip, .runStage .skipDoc, .clearSkip] ∧
    skipFlagAfter true (runIter total st e).2.1 = false := by
  have hpdf : process_pdf env = .skippedDoc := by
    unfold process_pdf
    rw [if_neg (by rw [hfast]; exact Bool.false_ne_true)]
    obtain ⟨k, hk⟩ := Option.isSome_iff_exists.mp hskip
    rw [hk]
  have hoc : e.outcome = .skipDoc := by rw [hout, hpdf]; rfl
  have hR : runIter total st e =
      (pauseEvents st total e.pausePolls ++
        [progressOf st total false,
         progressOf { st with skippedCount := st.skippedCount + 1,
                              processed := st.processed + 1 } total false],
       [.clearSkip, .runStage .skipDoc, .clearSkip],
       .cont { st with skippedCount := st.skippedCount + 1,
                       processed := st.processed + 1 }) := by
    rw [runIter, if_neg (by rw [h1]; exact Bool.false_ne_true)]
    rw [if_neg (by rw [h2]; exact Bool.false_ne_true)]
    rw [if_neg (by rw [h3]; exact Bool.false_ne_true)]
    rw [if_neg (by rw [h4]; simp)]
    rw [if_neg (by rw [h5]; simp)]
    rw [hoc]
    rfl
  refine ⟨hpdf, ?_, ?_, ?_⟩
  · rw [hR]
  · rw [hR]
  · rw [hR]; rfl

theorem batch_skip_recorded_and_cleared_instance :
    process_pdf pdfEnvSkip = .skippedDoc ∧
    (runIter 1 initStats iterEnvSkip).2.2 =
      .cont { initStats with skippedCount := initStats.skippedCount + 1,
                             processed := initStats.processed + 1 } ∧
    (runIter 1 initStats iterEnvSkip).2.1 =
      [.clearSkip, .runStage .skipDoc, .clearSkip] ∧
    skipFlagAfter true (runIter 1 initStats iterEnvSkip).2.1 = false :=
  batch_skip_recorded_and_cleared 1 initStats pdfEnvSkip iterEnvSkip
    rfl rfl rfl rfl rfl (by decide) (by decide) (by decide)

/- ------------------------------------------------------------------ -/
/- C10                                                                  -/
/- ------------------------------------------------------------------ -/

theorem evConsistent_progressOf (st : Stats) (total : Nat) (b : Bool)
    (hc : stOk st) (hb : st.processed ≤ total) :
    evConsistent (progressOf st total b) = true := by
  simp only [evConsistent, progressOf, Bool.and_eq_true, beq_iff_eq,
    decide_eq_true_eq]
  exact ⟨hc, hb⟩

theorem evConsistent_of_mem_pauseEvents (st : Stats) (total n : Nat)
    (ev : BEvent) (hc : stOk st) (hb : st.processed ≤ total)
    (hm : ev ∈ pauseEvents st total n) : evConsistent ev = true := by
  rw [List.eq_of_mem_replicate hm]
  exact evConsistent_progressOf st total true hc hb

theorem runIter_ok (total : Nat) (st : Stats) (e : IterEnv)
    (hc : stOk st) (hb : st.processed + 1 ≤ total) :
    (∀ ev ∈ (runIter total st e).1, evConsistent ev = true) ∧
    (∀ st1, (runIter total st e).2.2 = .cont st1 →
        stOk st1 ∧ st1.processed ≤ st.processed + 1) ∧
    (∀ st1, (runIter total st e).2.2 = .stopCancelled st1 → st1 = st) ∧
    (∀ st1, (runIter total st e).2.2 = .stopFatal st1 → st1 = st) := by
  have hble : st.processed ≤ total := Nat.le_of_succ_le hb
  rcases e with ⟨ct, pp, cap, qf, df, dn, ff, oc⟩
  cases ct with
  | true =>
    refine ⟨?_, ?_, ?_, ?_⟩
    · intro ev hev
      rw [List.mem_singleton.mp hev]
      simp only [evConsistent, Bool.and_eq_true, beq_iff_eq, decide_eq_true_eq]
      exact ⟨hc, hble⟩
    · intro st1 h; cases h
    · intro st1 h; injection h with h'; exact h'.symm
    · intro st1 h; cases h
  | false =>
    cases cap with
    | true =>
      refine ⟨?_, ?_, ?_, ?_⟩
      · intro ev hev
        exact evConsistent_of_mem_pauseEvents st total pp ev hc hble hev
      · intro st1 h
        injection h with h'
        exact h' ▸ ⟨hc, Nat.le_succ _⟩
      · intro st1 h; cases h
      · intro st1 h; cases h
    | false =>
      cases qf with
      | true =>
        refine ⟨?_, ?_, ?_, ?_⟩
        · intro ev hev
          exact evConsistent_of_mem_pauseEvents st total pp ev hc hble hev
        · intro st1 h; cases h
        · intro st1 h; cases h
        · intro st1 h; injection h with h'; exact h'.symm
      | false =>
        cases df with
        | false =>
          refine ⟨?_, ?_, ?_, ?_⟩
          · intro ev hev
            exact evConsistent_of_mem_pauseEvents st total pp ev hc hble hev
          · intro st1 h
            injection h with h'
            refine h' ▸ ⟨?_, ?_⟩
            · simp only [stOk] at hc ⊢; omega
            · exact Nat.le_refl _
          · intro st1 h; cases h
          · intro st1 h; cases h
        | true =>
          cases ff with
          | false =>
            refine ⟨?_, ?_, ?_, ?_⟩
            · intro ev hev
              rcases List.mem_append.mp hev with hm | hm
              · exact evConsistent_of_mem_pauseEvents st total pp ev hc hble hm
              · rw [List.mem_singleton.mp hm]
                exact evConsistent_progressOf st total false hc hble
            · intro st1 h
              injection h with h'
              refine h' ▸ ⟨?_, ?_⟩
              · simp only [stOk] at hc ⊢; omega
              · exact Nat.le_refl _
            · intro st1 h; cases h
            · intro st1 h; cases h
          | true =>
            cases oc with
            | success =>
              refine ⟨?_, ?_, ?_, ?_⟩
              · intro ev hev
                rcases List.mem_append.mp hev with hm | hm
                · exact evConsistent_of_mem_pauseEvents st total pp ev hc hble hm
                · rcases List.mem_cons.mp hm with rfl | hm2
                  · exact evConsistent_progressOf st total false hc hble
                  · rw [List.mem_singleton.mp hm2]
                    refine evConsistent_progressOf _ total false ?_ hb
                    simp only [stOk] at hc ⊢; omega
              · intro st1 h
                injection h with h'
                refine h' ▸ ⟨?_, ?_⟩
                · simp only [stOk] at hc ⊢; omega
                · exact Nat.le_refl _
              · intro st1 h; cases h
              · intro st1 h; cases h
            | skipDoc =>
              refine ⟨?_, ?_, ?_, ?_⟩
              · intro ev hev
                rcases List.mem_append.mp hev with hm | hm
                · exact evConsistent_of_mem_pauseEvents st total pp ev hc hble hm
                · rcases List.mem_cons.mp hm with rfl | hm2
                  · exact evConsistent_progressOf st total false hc hble
                  · rw [List.mem_singleton.mp hm2]
                    refine evConsistent_progressOf _ total false ?_ hb
                    simp only [stOk] at hc ⊢; omega
              · intro st1 h
                injection h with h'
                refine h' ▸ ⟨?_, ?_⟩
                · simp only [stOk] at hc ⊢; omega
                · exact Nat.le_refl _
              · intro st1 h; cases h
              · intro st1 h; cases h
            | failure msg =>
              refine ⟨?_, ?_, ?_, ?_⟩
              · intro ev hev
                rcases List.mem_append.mp hev with hm | hm
                · exact evConsistent_of_mem_pauseEvents st total pp ev hc hble hm
                · rcases List.mem_cons.mp hm with rfl | hm2
                  · exact evConsistent_progressOf st total false hc hble
                  · rw [List.mem_singleton.mp hm2]
                    refine evConsistent_progressOf _ total false ?_ hb
                    simp only [stOk] at hc ⊢; omega
              · intro st1 h
                injection h with h'
                refine h' ▸ ⟨?_, ?_⟩
                · simp only [stOk] at hc ⊢; omega
                · exact Nat.le_refl _
              · intro st1 h; cases h
              · intro st1 h; cases h

theorem batchLoop_ok (total : Nat) :
    ∀ (docs : List IterEnv) (st : Stats),
      stOk st → st.processed + docs.length ≤ total →
      (∀ ev ∈ (batchLoop total st docs).1, evConsistent ev = true) ∧
      (∀ st1,
          ((batchLoop total st docs).2.2 = .finishedLoop st1 ∨
           (batchLoop total st docs).2.2 = .cancelledRun st1 ∨
           (batchLoop total st docs).2.2 = .fatalRun st1) →
          stOk st1 ∧ st1.processed ≤ total)
  | [], st, hc, hb => by
    refine ⟨?_, ?_⟩
    · intro ev hev
      exact absurd hev (List.not_mem_nil ev)
    · intro st1 h
      rcases h with h | h | h
      · injection h with h'
        refine h' ▸ ⟨hc, ?_⟩
        simpa using hb
      · cases h
      · cases h
  | e :: rest, st, hc, hb => by
    rw [List.length_cons] at hb
    have hone : st.processed + 1 ≤ total := by omega
    obtain ⟨hev, hcont, hcanc, hfat⟩ := runIter_ok total st e hc hone
    rcases hri : runIter total st e with ⟨evs, acts, step⟩
    rw [hri] at hev hcont hcanc hfat
    cases step with
    | cont st1 =>
      obtain ⟨hc1, hle1⟩ := hcont st1 rfl
      have hb1 : st1.processed + rest.length ≤ total := by omega
      obtain ⟨hevr, hendr⟩ := batchLoop_ok total rest st1 hc1 hb1
      refine ⟨?_, ?_⟩
      · intro ev hm
        simp only [batchLoop, hri] at hm
        rcases List.mem_append.mp hm with hml | hmr
        · exact hev ev hml
        · exact hevr ev hmr
      · intro st2 h
        simp only [batchLoop, hri] at h
        exact hendr st2 h
    | stopCancelled st1 =>
      have hst : st1 = st := hcanc st1 rfl
      subst hst
      refine ⟨?_, ?_⟩
      · intro ev hm
        simp only [batchLoop, hri] at hm
        exact hev ev hm
      · intro st2 h
        simp only [batchLoop, hri] at h
        rcases h with h | h | h
        · cases h
        · injection h with h'
          exact h' ▸ ⟨hc, Nat.le_of_succ_le hone⟩
        · cases h
    | stopFatal st1 =>
      have hst : st1 = st := hfat st1 rfl
      subst hst
      refine ⟨?_, ?_⟩
      · intro ev hm
        simp only [batchLoop, hri] at hm
        exact hev ev hm
      · intro st2 h
        simp only [batchLoop, hri] at h
        rcases h with h | h | h
        · cases h
        · cases h
        · injection h with h'
          exact h' ▸ ⟨hc, Nat.le_of_succ_le hone⟩

/-- C10: in every aggregate progress event and every terminal event
published by a batch run — including the pause-loop, cancelled, blocked
and completed payloads — the counters satisfy
processed = succeeded + failed + skipped, and processed never exceeds the
length of the caller-supplied document id list. -/
theorem batch_event_counters_consistent (activeTask : Option String)
    (taskId : String) (docs : List IterEnv) :
    ∀ ev ∈ (batch_reprocess_task activeTask taskId docs).events,
      evConsistent ev = true := by
  intro ev hev
  by_cases hbk : activeBlocks activeTask taskId = true
  · simp only [batch_reprocess_task, hbk, if_true] at hev
    rw [List.mem_singleton.mp hev]
    simp [evConsistent]
  · have hbf : activeBlocks activeTask taskId = false := by
      revert hbk; cases activeBlocks activeTask taskId <;> simp
    obtain ⟨hevs, hend⟩ :=
      batchLoop_ok docs.length docs initStats rfl (by simp [initStats])
    rcases hbl : batchLoop docs.length initStats docs with ⟨evs, acts, fin⟩
    rw [hbl] at hevs hend
    cases fin with
    | finishedLoop st =>
      obtain ⟨hcs, hps⟩ := hend st (Or.inl rfl)
      simp only [batch_reprocess_task, hbf, Bool.false_eq_true, if_false,
        hbl] at hev
      rcases List.mem_cons.mp hev with rfl | hm
      · simp [evConsistent]
      · rcases List.mem_append.mp hm with hml | hmr
        · exact hevs ev hml
        · rw [List.mem_singleton.mp hmr]
          simp only [evConsistent, Bool.and_eq_true, beq_iff_eq,
            decide_eq_true_eq]
          exact ⟨hcs, hps⟩
    | cancelledRun st =>
      simp only [batch_reprocess_task, hbf, Bool.false_eq_true, if_false,
        hbl] at hev
      rcases List.mem_cons.mp hev with rfl | hm
      · simp [evConsistent]
      · exact hevs ev hm
    | fatalRun st =>
      obtain ⟨hcs, hps⟩ := hend st (Or.inr (Or.inr rfl))
      simp only [batch_reprocess_task, hbf, Bool.false_eq_true, if_false,
        hbl] at hev
      rcases List.mem_cons.mp hev with rfl | hm
      · simp [evConsistent]
      · rcases List.mem_append.mp hm with hml | hmr
        · exact hevs ev hml
        · rw [List.mem_singleton.mp hmr]
          simp only [evConsistent, Bool.and_eq_true, beq_iff_eq,
            decide_eq_true_eq]
          exact ⟨hcs, hps⟩

theorem batch_event_counters_consistent_instance :
    evConsistent (BEvent.completedEv 1 1 0 0 1 "completed") = true :=
  batch_event_counters_consistent none "run-b"
    [{ cancelledAtTop := false, pausePolls := 0, cancelledAfterPause := false,
       queryFatal := false, docFound := true, docName := "doc.pdf",
       fileFound := true, outcome := .success }]
    (BEvent.completedEv 1 1 0 0 1 "completed") (by decide)
